import Mathlib

/-!
Verification of the diagnostic protocol engine of the iload-obd2 gateway
(src/main.go), as a shallow embedding in Lean.

Conventions of the embedding:
* Go bytes are `Nat` with an explicit `< 256` hypothesis where it matters;
  byte-level operators are the `Nat` bitwise operators (`>>>`, `&&&`, `<<<`,
  `|||`), which agree with the Go operators since no value here reaches the
  word size.
* A CAN frame (can.Frame) is an identifier plus its 8 data bytes; the data
  array `[8]byte` is a `List Nat` together with a `length = 8` hypothesis.
  A statically in-range Go array access `Data[k]` is `data.getD k 0`; an
  access whose index is only checked at run time is `data[i]?`, with `none`
  standing for the Go runtime out-of-range panic.
* Go strings are byte strings; results built by `string(bytes)` are kept as
  `List Nat`.  The strings produced by `fmt.Sprintf` in `decodeDTC` are pure
  ASCII and are modelled as Lean `String`.
* Channel reads with a timeout (`select` on `frameChan` and `time.After`)
  are modelled by handing each reading operation the list of frames that
  arrive on the channel before its timeout fires, in arrival order; a read
  from an empty list is the timeout case.
-/

namespace Iload

/-- Result of a fallible Go computation: a value, an `error`, or a runtime
panic caused by an out-of-range slice index. -/
inductive GoRes (α : Type) where
  | ok (a : α)
  | err (msg : String)
  | outOfRange
deriving DecidableEq

/-- A CAN frame: identifier and data bytes (the Go type is `can.Frame` with
`Data [8]byte`; theorems carry `data.length = 8` where it matters). -/
structure Frame where
  id : Nat
  data : List Nat
deriving DecidableEq

/-! ## DTC codec (src/main.go lines 348-370) -/

/-- One uppercase hexadecimal digit, as printed by Go `fmt` verb `%X`. -/
def hexDigit (n : Nat) : Char :=
  if n < 10 then Char.ofNat (48 + n) else Char.ofNat (55 + n)

/-- `fmt.Sprintf "%04X"` for values below `2 ^ 16`: exactly four uppercase
zero-padded hexadecimal digits. -/
def hex4 (n : Nat) : String :=
  String.mk [hexDigit (n / 4096 % 16), hexDigit (n / 256 % 16),
             hexDigit (n / 16 % 16), hexDigit (n % 16)]

/-- The `switch b1 >> 6` of `decodeDTC` (main.go 356-365): category letter
from the top two bits; the Go switch leaves `dtcType` empty when no case
matches (impossible for a byte). -/
def dtcTypeOf (b1 : Nat) : String :=
  if b1 >>> 6 = 0 then "P"
  else if b1 >>> 6 = 1 then "C"
  else if b1 >>> 6 = 2 then "B"
  else if b1 >>> 6 = 3 then "U"
  else ""

/-- `decodeDTC` (main.go 349): converts two bytes into a DTC string.
Mirrors the source: the all-zero pair gives the empty string; otherwise the
category letter is selected by `b1 >> 6`, and the 14-bit value
`(b1 & 0x3F) << 8 | b2` is printed with `fmt.Sprintf "%s%04X"`. -/
def decodeDTC (b1 b2 : Nat) : String :=
  if b1 = 0 ∧ b2 = 0 then ""
  else dtcTypeOf b1 ++ hex4 ((b1 &&& 0x3F) <<< 8 ||| b2)

/-! Spec-side definitions for claim C1, written from the words of the spec
(category table, regular expression `^[PCBU][0-9A-F]{4}$`, hex value). -/

/-- Spec-side: the category character table `{00 -> P, 01 -> C, 10 -> B,
11 -> U}` indexed by the top two bits. -/
def specCategoryChar (d : Nat) : Char :=
  match d with
  | 0 => 'P'
  | 1 => 'C'
  | 2 => 'B'
  | _ => 'U'

/-- Spec-side: is `c` an uppercase hexadecimal digit (`[0-9A-F]`). -/
def isUpperHexDigit (c : Char) : Bool :=
  ("0123456789ABCDEF".data).contains c

/-- Spec-side: does `s` match the regular expression `^[PCBU][0-9A-F]{4}$`
(a 5-character string: category letter then 4 uppercase hex digits). -/
def dtcPattern (s : String) : Bool :=
  match s.data with
  | [c0, c1, c2, c3, c4] =>
    ("PCBU".data).contains c0 && isUpperHexDigit c1 && isUpperHexDigit c2
      && isUpperHexDigit c3 && isUpperHexDigit c4
  | _ => false

/-- Spec-side: numeric value of one uppercase hexadecimal digit. -/
def hexDigitVal (c : Char) : Option Nat :=
  if '0' ≤ c ∧ c ≤ '9' then some (c.toNat - 48)
  else if 'A' ≤ c ∧ c ≤ 'F' then some (c.toNat - 55)
  else none

/-- Spec-side: numeric value of a list of uppercase hexadecimal digits. -/
def hexListVal (l : List Char) : Option Nat :=
  l.foldl
    (fun acc c =>
      match acc, hexDigitVal c with
      | some a, some v => some (16 * a + v)
      | _, _ => none)
    (some 0)

/-! Small facts about the hex rendering. -/

theorem hexDigitVal_hexDigit : ∀ k : Fin 16, hexDigitVal (hexDigit k.val) = some k.val := by
  decide

theorem isUpperHexDigit_hexDigit : ∀ k : Fin 16, isUpperHexDigit (hexDigit k.val) = true := by
  decide

theorem hexDigitVal_hexDigit_of_lt {k : Nat} (h : k < 16) :
    hexDigitVal (hexDigit k) = some k :=
  hexDigitVal_hexDigit ⟨k, h⟩

theorem isUpperHexDigit_hexDigit_of_lt {k : Nat} (h : k < 16) :
    isUpperHexDigit (hexDigit k) = true :=
  isUpperHexDigit_hexDigit ⟨k, h⟩

theorem hexListVal_hex4 {n : Nat} (h : n < 65536) :
    hexListVal (hex4 n).data = some n := by
  have h0 : n % 16 < 16 := Nat.mod_lt _ (by norm_num)
  have h1 : n / 16 % 16 < 16 := Nat.mod_lt _ (by norm_num)
  have h2 : n / 256 % 16 < 16 := Nat.mod_lt _ (by norm_num)
  have h3 : n / 4096 % 16 < 16 := Nat.mod_lt _ (by norm_num)
  simp only [hex4, hexListVal, List.foldl,
    hexDigitVal_hexDigit_of_lt h0, hexDigitVal_hexDigit_of_lt h1,
    hexDigitVal_hexDigit_of_lt h2, hexDigitVal_hexDigit_of_lt h3]
  congr 1
  omega

theorem decodeDTC_eq_of {b1 b2 : Nat} (h : ¬(b1 = 0 ∧ b2 = 0)) :
    decodeDTC b1 b2 = dtcTypeOf b1 ++ hex4 ((b1 &&& 0x3F) <<< 8 ||| b2) := by
  unfold decodeDTC
  rw [if_neg h]

theorem decodeDTC_ne_empty {b1 b2 : Nat} (h : ¬(b1 = 0 ∧ b2 = 0)) :
    decodeDTC b1 b2 ≠ "" := by
  intro heq
  have hd := congrArg String.data heq
  rw [decodeDTC_eq_of h, String.data_append] at hd
  simp [hex4] at hd

theorem dtc_result_props (c : Char) (n : Nat) (hn : n < 65536)
    (hc : ("PCBU".data).contains c = true) :
    dtcPattern (String.mk (c :: (hex4 n).data)) = true
    ∧ (String.mk (c :: (hex4 n).data)).data.head? = some c
    ∧ hexListVal (String.mk (c :: (hex4 n).data)).data.tail = some n := by
  have h0 : n % 16 < 16 := Nat.mod_lt _ (by norm_num)
  have h1 : n / 16 % 16 < 16 := Nat.mod_lt _ (by norm_num)
  have h2 : n / 256 % 16 < 16 := Nat.mod_lt _ (by norm_num)
  have h3 : n / 4096 % 16 < 16 := Nat.mod_lt _ (by norm_num)
  refine ⟨?_, rfl, ?_⟩
  · simp [dtcPattern, hex4, hc,
      isUpperHexDigit_hexDigit_of_lt h0, isUpperHexDigit_hexDigit_of_lt h1,
      isUpperHexDigit_hexDigit_of_lt h2, isUpperHexDigit_hexDigit_of_lt h3]
    simpa using hc
  · simpa using hexListVal_hex4 hn

/-- Claim C1: for every byte pair, `decodeDTC` returns the empty string
exactly when both bytes are zero; otherwise the result matches
`^[PCBU][0-9A-F]{4}$`, the first character is selected by `b1 >> 6`
(0 P, 1 C, 2 B, 3 U), and the four hex digits render the 14-bit value
`(b1 & 0x3F) << 8 | b2`; in particular the four documented examples hold. -/
theorem c1_decodeDTC_correct (b1 b2 : Nat) (hb1 : b1 < 256) (hb2 : b2 < 256) :
    (decodeDTC b1 b2 = "" ↔ b1 = 0 ∧ b2 = 0)
    ∧ (¬(b1 = 0 ∧ b2 = 0) →
        dtcPattern (decodeDTC b1 b2) = true
        ∧ (decodeDTC b1 b2).data.head? = some (specCategoryChar (b1 >>> 6))
        ∧ hexListVal (decodeDTC b1 b2).data.tail = some ((b1 &&& 0x3F) <<< 8 ||| b2))
    ∧ decodeDTC 0x00 0x0C = "P000C" ∧ decodeDTC 0x40 0x01 = "C0001"
    ∧ decodeDTC 0x80 0xFF = "B00FF" ∧ decodeDTC 0xC2 0x10 = "U0210" := by
  have hdiv : b1 >>> 6 = b1 / 64 := by
    rw [Nat.shiftRight_eq_div_pow]
  have hshl : (b1 &&& 0x3F) <<< 8 = (b1 &&& 0x3F) * 256 := by
    rw [Nat.shiftLeft_eq]
  have hand : b1 &&& 0x3F ≤ 63 := Nat.and_le_right
  have hcode : (b1 &&& 0x3F) <<< 8 ||| b2 < 65536 := by
    have hx : (b1 &&& 0x3F) <<< 8 < 2 ^ 16 := by
      rw [hshl]; omega
    have hy : b2 < 2 ^ 16 := by omega
    calc (b1 &&& 0x3F) <<< 8 ||| b2 < 2 ^ 16 := Nat.or_lt_two_pow hx hy
      _ = 65536 := by norm_num
  refine ⟨⟨fun he => ?_, fun hz => ?_⟩, fun hz => ?_,
    by decide, by decide, by decide, by decide⟩
  · by_contra hz
    exact decodeDTC_ne_empty hz he
  · obtain ⟨rfl, rfl⟩ := hz
    decide
  · have h4 : b1 / 64 < 4 := by omega
    have hcases : b1 / 64 = 0 ∨ b1 / 64 = 1 ∨ b1 / 64 = 2 ∨ b1 / 64 = 3 := by omega
    rcases hcases with h6 | h6 | h6 | h6
    · have hts : dtcTypeOf b1 = "P" := by simp [dtcTypeOf, hdiv, h6]
      have hsc : specCategoryChar (b1 >>> 6) = 'P' := by rw [hdiv, h6]; rfl
      have heq : decodeDTC b1 b2 =
          String.mk ('P' :: (hex4 ((b1 &&& 0x3F) <<< 8 ||| b2)).data) := by
        rw [decodeDTC_eq_of hz, hts]; rfl
      rw [heq, hsc]
      exact dtc_result_props 'P' _ hcode (by decide)
    · have hts : dtcTypeOf b1 = "C" := by simp [dtcTypeOf, hdiv, h6]
      have hsc : specCategoryChar (b1 >>> 6) = 'C' := by rw [hdiv, h6]; rfl
      have heq : decodeDTC b1 b2 =
          String.mk ('C' :: (hex4 ((b1 &&& 0x3F) <<< 8 ||| b2)).data) := by
        rw [decodeDTC_eq_of hz, hts]; rfl
      rw [heq, hsc]
      exact dtc_result_props 'C' _ hcode (by decide)
    · have hts : dtcTypeOf b1 = "B" := by simp [dtcTypeOf, hdiv, h6]
      have hsc : specCategoryChar (b1 >>> 6) = 'B' := by rw [hdiv, h6]; rfl
      have heq : decodeDTC b1 b2 =
          String.mk ('B' :: (hex4 ((b1 &&& 0x3F) <<< 8 ||| b2)).data) := by
        rw [decodeDTC_eq_of hz, hts]; rfl
      rw [heq, hsc]
      exact dtc_result_props 'B' _ hcode (by decide)
    · have hts : dtcTypeOf b1 = "U" := by simp [dtcTypeOf, hdiv, h6]
      have hsc : specCategoryChar (b1 >>> 6) = 'U' := by rw [hdiv, h6]; rfl
      have heq : decodeDTC b1 b2 =
          String.mk ('U' :: (hex4 ((b1 &&& 0x3F) <<< 8 ||| b2)).data) := by
        rw [decodeDTC_eq_of hz, hts]; rfl
      rw [heq, hsc]
      exact dtc_result_props 'U' _ hcode (by decide)

/-- Concrete instantiation of claim C1 at byte pair (0xC2, 0x10). -/
theorem c1_decodeDTC_correct_witness :
    decodeDTC 0xC2 0x10 = "U0210" ∧ dtcPattern (decodeDTC 0xC2 0x10) = true := by
  have h := c1_decodeDTC_correct 0xC2 0x10 (by decide) (by decide)
  exact ⟨h.2.2.2.2.2, (h.2.1 (by decide)).1⟩

/-! ## Mode-3 DTC response processing (src/main.go lines 320-346)

The Go loop is `for i := 2; i < int(numBytes) && i+1 < 8; i += 2`.  It is
embedded with the loop index `i` kept explicit and the first bound carried
as the count `rem = numBytes - i` of declared bytes still to go, so that
`i < numBytes` is `0 < rem`; the recursion is structural on `rem`
(two steps per iteration).  The accesses `frame.Data[i]`, `frame.Data[i+1]`
are guarded by `i+1 < 8` in the source and the array has exactly 8 bytes,
so the total accessor `getD` is used here; `dtcStepChk` below re-checks the
same accesses against the actual list bounds for the safety claim. -/

/-- One iteration of the DTC loop at index `i`: the `i+1 < 8` bound check,
the all-zero-pair skip, the decode, and the empty-string guard.  `rest` is
the result of the remaining iterations; when the bound check fails the loop
exits, discarding `rest`. -/
def dtcStep (data : List Nat) (i : Nat) (rest : List String) : List String :=
  if i + 1 < 8 then
    if data.getD i 0 = 0 ∧ data.getD (i + 1) 0 = 0 then rest
    else
      if decodeDTC (data.getD i 0) (data.getD (i + 1) 0) = "" then rest
      else decodeDTC (data.getD i 0) (data.getD (i + 1) 0) :: rest
  else []

/-- The DTC loop of `processDTCResponse`, with `rem = numBytes - i`. -/
def dtcLoop (data : List Nat) : Nat → Nat → List String
  | _, 0 => []
  | i, 1 => dtcStep data i []
  | i, rem + 2 => dtcStep data i (dtcLoop data (i + 2) rem)

/-- `processDTCResponse` (main.go 321): rejects frames whose identifier is
not 0x7E8, whose declared length is below 2, or whose acknowledgement byte
is not 0x43 (the Go function returns nil, embedded as the empty list);
otherwise runs the pair loop from offset 2. -/
def processDTCResponse (f : Frame) : List String :=
  if f.id ≠ 0x7E8 then []
  else
    if f.data.getD 0 0 < 2 ∨ f.data.getD 1 0 ≠ 0x43 then []
    else dtcLoop f.data 2 (f.data.getD 0 0 - 2)

/-- Bounds-checked variant of `dtcStep` for the safety claim: the two array
accesses go through `getElem?` and an out-of-range index is reported
instead of being defaulted. -/
def dtcStepChk (data : List Nat) (i : Nat) (rest : GoRes (List String)) :
    GoRes (List String) :=
  if i + 1 < 8 then
    match data[i]?, data[i + 1]? with
    | some b1, some b2 =>
      match rest with
      | .ok tail =>
        if b1 = 0 ∧ b2 = 0 then .ok tail
        else
          if decodeDTC b1 b2 = "" then .ok tail
          else .ok (decodeDTC b1 b2 :: tail)
      | r => r
    | _, _ => .outOfRange
  else .ok []

/-- Bounds-checked variant of `dtcLoop`. -/
def dtcLoopChk (data : List Nat) : Nat → Nat → GoRes (List String)
  | _, 0 => .ok []
  | i, 1 => dtcStepChk data i (.ok [])
  | i, rem + 2 => dtcStepChk data i (dtcLoopChk data (i + 2) rem)

/-- Bounds-checked variant of `processDTCResponse`. -/
def processDTCResponseChk (f : Frame) : GoRes (List String) :=
  if f.id ≠ 0x7E8 then .ok []
  else
    if f.data.getD 0 0 < 2 ∨ f.data.getD 1 0 ≠ 0x43 then .ok []
    else dtcLoopChk f.data 2 (f.data.getD 0 0 - 2)

/-! ## Vehicle-information response processing (src/main.go lines 143-174) -/

/-- `sendInfoRequest` (main.go 144): the request frame written to the bus,
identifier 0x7DF, declared length 2, mode and PID bytes, zero padding. -/
def sendInfoRequest (mode pid : Nat) : Frame :=
  { id := 0x7DF, data := [0x02, mode, pid, 0x00, 0x00, 0x00, 0x00, 0x00] }

/-- The extraction loop of `processInfoResponse` (main.go 167):
`for i := 2; i < int(numBytes); i++`, keeping the non-zero bytes.  The
index `i` is explicit and the remaining count `rem = numBytes - i` drives
the structural recursion; the access `frame.Data[i]` is bounds-checked, an
out-of-range index being the Go runtime panic. -/
def infoLoop (data : List Nat) : Nat → Nat → GoRes (List Nat)
  | _, 0 => .ok []
  | i, rem + 1 =>
    match data[i]? with
    | none => .outOfRange
    | some b =>
      match infoLoop data (i + 1) rem with
      | .ok rest => .ok (if b ≠ 0 then b :: rest else rest)
      | r => r

/-- `processInfoResponse` (main.go 154): rejects a frame whose identifier
is not 0x7E8; reads the declared length from byte 0; rejects a declared
length below 2 or an acknowledgement byte different from `0x40 | mode`;
then collects the non-zero bytes at offsets `2 .. numBytes-1`.  The Go
result is `string(data)`, a byte string, kept here as the byte list. -/
def processInfoResponse (f : Frame) (mode : Nat) : GoRes (List Nat) :=
  if f.id ≠ 0x7E8 then .err "unexpected response ID"
  else
    if f.data.getD 0 0 < 2 ∨ f.data.getD 1 0 ≠ (0x40 ||| mode) then
      .err "invalid response format"
    else infoLoop f.data 2 (f.data.getD 0 0 - 2)

/-- The receive half of the `getInfo` closure inside `getECUInfo`
(main.go 184-201): after the request is sent, a single `select` waits for
either one frame from `frameChan` or the 100 ms timeout.  `incoming` is
the list of frames that arrive before the timeout: the select consumes the
first one if there is any and hands it to `processInfoResponse`; an empty
list is the timeout.  No second read happens on any path. -/
def getInfo (incoming : List Frame) (mode : Nat) : GoRes (List Nat) :=
  match incoming with
  | [] => .err "timeout waiting for response"
  | f :: _ => processInfoResponse f mode

/-! ## Claim C2: declarative description of the DTC walk -/

/-- Spec-side rendering of the mode-3 walk: the candidate pair offsets are
2, 4, 6 (the offsets reached from 2 in steps of two with both bytes inside
the 8-byte frame); an offset is decoded only when it is below the declared
length, and all-zero pairs are skipped. -/
def dtcPairsSpec (data : List Nat) (n : Nat) : List String :=
  ([2, 4, 6].filter (fun i => decide (i < n))).filterMap (fun i =>
    if data.getD i 0 = 0 ∧ data.getD (i + 1) 0 = 0 then none
    else some (decodeDTC (data.getD i 0) (data.getD (i + 1) 0)))

theorem dtcStep_eq (data : List Nat) (i : Nat) (h8 : i + 1 < 8)
    (rest : List String) :
    dtcStep data i rest =
      (if data.getD i 0 = 0 ∧ data.getD (i + 1) 0 = 0 then rest
       else decodeDTC (data.getD i 0) (data.getD (i + 1) 0) :: rest) := by
  unfold dtcStep
  rw [if_pos h8]
  by_cases hz : data.getD i 0 = 0 ∧ data.getD (i + 1) 0 = 0
  · rw [if_pos hz, if_pos hz]
  · rw [if_neg hz, if_neg hz, if_neg (decodeDTC_ne_empty hz)]

theorem dtcLoop_unfold (data : List Nat) (i rem : Nat) (h : 0 < rem) :
    dtcLoop data i rem = dtcStep data i (dtcLoop data (i + 2) (rem - 2)) := by
  match rem with
  | 1 => rfl
  | rem + 2 => rfl

theorem dtcLoop_eight (data : List Nat) (rem : Nat) :
    dtcLoop data 8 rem = [] := by
  match rem with
  | 0 => rfl
  | 1 => rfl
  | rem + 2 => rfl

theorem dtcLoop_eq_pairsSpec (data : List Nat) (n : Nat) (h2 : 2 ≤ n) :
    dtcLoop data 2 (n - 2) = dtcPairsSpec data n := by
  by_cases hn2 : 2 < n
  · rw [dtcLoop_unfold _ _ _ (by omega)]
    by_cases hn4 : 4 < n
    · rw [show n - 2 - 2 = n - 4 from by omega, dtcLoop_unfold _ _ _ (by omega)]
      by_cases hn6 : 6 < n
      · rw [show n - 4 - 2 = n - 6 from by omega, dtcLoop_unfold _ _ _ (by omega),
          dtcLoop_eight]
        rw [dtcStep_eq _ _ (by norm_num), dtcStep_eq _ _ (by norm_num),
          dtcStep_eq _ _ (by norm_num)]
        simp only [dtcPairsSpec, List.filter, decide_eq_true_eq, hn2, hn4, hn6,
          if_pos, List.filterMap]
        by_cases hza : data.getD 2 0 = 0 ∧ data.getD 3 0 = 0 <;>
          by_cases hzb : data.getD 4 0 = 0 ∧ data.getD 5 0 = 0 <;>
            by_cases hzc : data.getD 6 0 = 0 ∧ data.getD 7 0 = 0 <;>
              simp [hza, hzb, hzc, -List.getD_eq_getElem?_getD]
      · rw [show n - 4 - 2 = 0 from by omega]
        rw [dtcStep_eq _ _ (by norm_num), dtcStep_eq _ _ (by norm_num)]
        have hfil : [2, 4, 6].filter (fun i => decide (i < n)) = [2, 4] := by
          simp [hn2, hn4, hn6]
        unfold dtcPairsSpec
        rw [hfil]
        by_cases hza : data.getD 2 0 = 0 ∧ data.getD 3 0 = 0 <;>
          by_cases hzb : data.getD 4 0 = 0 ∧ data.getD 5 0 = 0 <;>
            simp [dtcLoop, hza, hzb, -List.getD_eq_getElem?_getD]
    · rw [show n - 2 - 2 = 0 from by omega]
      rw [dtcStep_eq _ _ (by norm_num)]
      have hn6 : ¬(6 < n) := by omega
      have hfil : [2, 4, 6].filter (fun i => decide (i < n)) = [2] := by
        simp [hn2, hn4, hn6]
      unfold dtcPairsSpec
      rw [hfil]
      by_cases hza : data.getD 2 0 = 0 ∧ data.getD 3 0 = 0 <;>
        simp [dtcLoop, hza, -List.getD_eq_getElem?_getD]
  · have hn : n = 2 := by omega
    subst hn
    simp [dtcPairsSpec, dtcLoop]

/-- Claim C2: a mode-3 response frame addressed from 0x7E8 yields the empty
result when the declared length is below 2 or the acknowledgement byte is
not 0x43; otherwise the result is exactly the walk over pair offsets 2, 4,
6 bounded by the declared length and the frame, skipping all-zero pairs;
and the documented example frame decodes to exactly ["P0123"]. -/
theorem c2_processDTCResponse_correct (f : Frame) (hlen : f.data.length = 8)
    (hid : f.id = 0x7E8) :
    ((f.data.getD 0 0 < 2 ∨ f.data.getD 1 0 ≠ 0x43) → processDTCResponse f = [])
    ∧ (¬(f.data.getD 0 0 < 2 ∨ f.data.getD 1 0 ≠ 0x43) →
        processDTCResponse f = dtcPairsSpec f.data (f.data.getD 0 0))
    ∧ processDTCResponse
        { id := 0x7E8, data := [0x05, 0x43, 0x01, 0x23, 0x00, 0x00, 0x00, 0x00] }
        = ["P0123"] := by
  refine ⟨?_, ?_, by decide⟩
  · intro h
    unfold processDTCResponse
    rw [if_neg (by simp [hid]), if_pos h]
  · intro h
    unfold processDTCResponse
    rw [if_neg (by simp [hid]), if_neg h]
    exact dtcLoop_eq_pairsSpec f.data _ (by omega)

/-- Concrete instantiation of claim C2 at the documented example frame. -/
theorem c2_processDTCResponse_correct_witness :
    processDTCResponse
        { id := 0x7E8, data := [0x05, 0x43, 0x01, 0x23, 0x00, 0x00, 0x00, 0x00] }
      = dtcPairsSpec [0x05, 0x43, 0x01, 0x23, 0x00, 0x00, 0x00, 0x00] 0x05 := by
  have h := c2_processDTCResponse_correct
    { id := 0x7E8, data := [0x05, 0x43, 0x01, 0x23, 0x00, 0x00, 0x00, 0x00] }
    (by decide) rfl
  exact h.2.1 (by decide)

/-! ## Claim C10: the DTC walk never indexes outside the frame -/

theorem dtcStepChk_eq (data : List Nat) (i : Nat) (hlen : data.length = 8)
    (rest : List String) :
    dtcStepChk data i (.ok rest) = .ok (dtcStep data i rest) := by
  unfold dtcStepChk dtcStep
  by_cases h8 : i + 1 < 8
  · have hi : i < data.length := by omega
    have hi1 : i + 1 < data.length := by omega
    rw [if_pos h8, if_pos h8, List.getElem?_eq_getElem hi,
      List.getElem?_eq_getElem hi1]
    have gi : data.getD i 0 = data[i] := by
      rw [List.getD_eq_getElem?_getD, List.getElem?_eq_getElem hi]
      rfl
    have gi1 : data.getD (i + 1) 0 = data[i + 1] := by
      rw [List.getD_eq_getElem?_getD, List.getElem?_eq_getElem hi1]
      rfl
    rw [gi, gi1]
    by_cases hz : data[i] = 0 ∧ data[i + 1] = 0
    · simp [hz]
    · by_cases he : decodeDTC data[i] data[i + 1] = "" <;> simp [hz, he]
  · rw [if_neg h8, if_neg h8]

theorem dtcLoopChk_eq (data : List Nat) (hlen : data.length = 8) :
    ∀ rem i, dtcLoopChk data i rem = .ok (dtcLoop data i rem) := by
  intro rem
  induction rem using Nat.strong_induction_on with
  | _ rem ih =>
    intro i
    match rem with
    | 0 => rfl
    | 1 =>
      show dtcStepChk data i (.ok []) = .ok (dtcStep data i [])
      exact dtcStepChk_eq data i hlen []
    | rem + 2 =>
      show dtcStepChk data i (dtcLoopChk data (i + 2) rem)
        = .ok (dtcStep data i (dtcLoop data (i + 2) rem))
      rw [ih rem (by omega) (i + 2)]
      exact dtcStepChk_eq data i hlen _

/-- Claim C10: on any 8-byte frame the DTC walk only touches byte pairs
lying inside the frame, whatever the declared length says (the
bounds-checked run never reports an out-of-range access and agrees with
the total one), and a frame declaring 255 bytes is decoded from the three
in-frame pairs rather than rejected. -/
theorem c10_processDTCResponse_total (f : Frame) (hlen : f.data.length = 8) :
    processDTCResponseChk f = .ok (processDTCResponse f)
    ∧ processDTCResponse
        { id := 0x7E8, data := [0xFF, 0x43, 0x01, 0x23, 0x45, 0x67, 0x89, 0xAB] }
        = ["P0123", "C0567", "B09AB"] := by
  refine ⟨?_, by decide⟩
  unfold processDTCResponseChk processDTCResponse
  by_cases h1 : f.id ≠ 0x7E8
  · rw [if_pos h1, if_pos h1]
  · rw [if_neg h1, if_neg h1]
    by_cases h2 : f.data.getD 0 0 < 2 ∨ f.data.getD 1 0 ≠ 0x43
    · rw [if_pos h2, if_pos h2]
    · rw [if_neg h2, if_neg h2]
      exact dtcLoopChk_eq f.data hlen _ 2

/-- Concrete instantiation of claim C10 at the length-255 frame. -/
theorem c10_processDTCResponse_total_witness :
    processDTCResponseChk
        { id := 0x7E8, data := [0xFF, 0x43, 0x01, 0x23, 0x45, 0x67, 0x89, 0xAB] }
      = .ok (processDTCResponse
        { id := 0x7E8, data := [0xFF, 0x43, 0x01, 0x23, 0x45, 0x67, 0x89, 0xAB] }) :=
  (c10_processDTCResponse_total
    { id := 0x7E8, data := [0xFF, 0x43, 0x01, 0x23, 0x45, 0x67, 0x89, 0xAB] }
    (by decide)).1

/-! ## Claim C9: zero bytes inside the declared payload are dropped -/

theorem infoLoop_ok (data : List Nat) :
    ∀ rem i, i + rem ≤ data.length →
      infoLoop data i rem =
        .ok (((data.drop i).take rem).filter (fun b => decide (b ≠ 0))) := by
  intro rem
  induction rem with
  | zero => intro i h; simp [infoLoop]
  | succ rem ih =>
    intro i h
    have hi : i < data.length := by omega
    show (match data[i]? with
      | none => GoRes.outOfRange
      | some b =>
        match infoLoop data (i + 1) rem with
        | .ok rest => .ok (if b ≠ 0 then b :: rest else rest)
        | r => r) = _
    rw [List.getElem?_eq_getElem hi, ih (i + 1) (by omega)]
    have hdrop : data.drop i = data[i] :: data.drop (i + 1) :=
      (List.getElem_cons_drop data i hi).symm
    rw [hdrop]
    by_cases hb : data[i] = 0 <;> simp [hb, -List.getElem_cons_drop]

/-- Claim C9: for every accepted identity response whose declared length
fits in the frame, the result is exactly the sub-list of non-zero bytes at
offsets 2 .. declaredLength-1 in order; a zero byte strictly inside the
payload is dropped as well, as the concrete frame with payload
[0x41, 0x00, 0x42, 0x43] shows. -/
theorem c9_processInfoResponse_drops_zeros (f : Frame) (mode : Nat)
    (hlen : f.data.length = 8) (hid : f.id = 0x7E8)
    (hnum2 : 2 ≤ f.data.getD 0 0) (hnum8 : f.data.getD 0 0 ≤ 8)
    (hack : f.data.getD 1 0 = (0x40 ||| mode)) :
    processInfoResponse f mode =
      .ok (((f.data.drop 2).take (f.data.getD 0 0 - 2)).filter
        (fun b => decide (b ≠ 0)))
    ∧ processInfoResponse
        { id := 0x7E8, data := [0x06, 0x49, 0x41, 0x00, 0x42, 0x43, 0x00, 0x00] }
        0x09
        = .ok [0x41, 0x42, 0x43] := by
  refine ⟨?_, by decide⟩
  unfold processInfoResponse
  rw [if_neg (by simp [hid]), if_neg (by push_neg; exact ⟨hnum2, hack⟩)]
  exact infoLoop_ok f.data _ 2 (by omega)

/-- Concrete instantiation of claim C9 at the interior-zero frame. -/
theorem c9_processInfoResponse_drops_zeros_witness :
    processInfoResponse
        { id := 0x7E8, data := [0x06, 0x49, 0x41, 0x00, 0x42, 0x43, 0x00, 0x00] }
        0x09
      = .ok ((([0x06, 0x49, 0x41, 0x00, 0x42, 0x43, 0x00, 0x00].drop 2).take 4).filter
        (fun b => decide (b ≠ 0))) :=
  (c9_processInfoResponse_drops_zeros
    { id := 0x7E8, data := [0x06, 0x49, 0x41, 0x00, 0x42, 0x43, 0x00, 0x00] }
    0x09 (by decide) rfl (by decide) (by decide) (by decide)).1

/-! ## Claim C4: declared length beyond the frame -/

/-- Claim C4 fails on the code (code bug): a frame from 0x7E8 declaring 9
payload bytes with a well-formed acknowledgement byte drives the
extraction loop of `processInfoResponse` to index 8 of the 8-byte array.
The source does not reject the frame with an error; it performs the
out-of-range access (a Go runtime panic). -/
theorem c4_processInfoResponse_overrun :
    processInfoResponse
        { id := 0x7E8, data := [0x09, 0x49, 0x41, 0x42, 0x43, 0x44, 0x45, 0x46] }
        0x09
      = .outOfRange
    ∧ ∀ msg, processInfoResponse
        { id := 0x7E8, data := [0x09, 0x49, 0x41, 0x42, 0x43, 0x44, 0x45, 0x46] }
        0x09
      ≠ .err msg := by
  refine ⟨by decide, ?_⟩
  intro msg h
  rw [show processInfoResponse
      { id := 0x7E8, data := [0x09, 0x49, 0x41, 0x42, 0x43, 0x44, 0x45, 0x46] }
      0x09 = .outOfRange from by decide] at h
  exact GoRes.noConfusion h

/-! ## Claim C3: one read per exchange; a foreign frame fails the exchange

`getMapValue` is the receive half of the map-cell closure inside
`getEngineMaps` (main.go 250-276): one `select` on `frameChan` bounded by
the 100 ms timeout; identifier check against 0x7E8, declared length at
least 5, acknowledgement byte 0x49, then bytes 3 and 4 are combined
big-endian into a 16-bit value and divided by 100.  Go float64 arithmetic
is modelled in ℚ; every value reached here (an integer below 65536 divided
by 100) is exactly representable in float64 up to the final division,
which Go rounds to the nearest double; the claims under proof never
compare two different results of that division, so the rational model is
faithful for them. -/
def getMapValue (incoming : List Frame) : GoRes ℚ :=
  match incoming with
  | [] => .err "timeout waiting for response"
  | f :: _ =>
    if f.id ≠ 0x7E8 then .err "unexpected response ID"
    else
      if f.data.getD 0 0 < 5 ∨ f.data.getD 1 0 ≠ 0x49 then
        .err "invalid response format: insufficient data length"
      else .ok (((f.data.getD 3 0 <<< 8 ||| f.data.getD 4 0 : Nat) : ℚ) / 100)

/-- The frame the program itself publishes on identifier 0x123 every five
seconds (main.go 543-547): the bytes "TEST" padded with zeros. -/
def testFrame : Frame :=
  { id := 0x123, data := [0x54, 0x45, 0x53, 0x54, 0x00, 0x00, 0x00, 0x00] }

/-- A well-formed mode-9 identity response carrying the bytes "ABCD". -/
def demoInfoResponse : Frame :=
  { id := 0x7E8, data := [0x06, 0x49, 0x41, 0x42, 0x43, 0x44, 0x00, 0x00] }

/-- Claim C3 as stated is false: with the broadcast test frame arriving
first and the matching 0x7E8 response right behind it, the exchange
returns an error instead of discarding the non-matching frame and
returning the matching response. -/
theorem c3_counterexample :
    getInfo [testFrame, demoInfoResponse] 0x09 = .err "unexpected response ID"
    ∧ processInfoResponse demoInfoResponse 0x09
      = .ok [0x41, 0x42, 0x43, 0x44] := by
  constructor
  · decide
  · decide

/-- Claim C3 amended: each exchange performs exactly one bounded read.  An
empty arrival list is the timeout error; otherwise the outcome is decided
entirely by the first arriving frame (later frames are never read), and a
first frame with a foreign identifier fails the exchange with an error;
the map-cell exchange behaves the same way. -/
theorem c3_single_read (mode : Nat) :
    getInfo [] mode = .err "timeout waiting for response"
    ∧ (∀ (f : Frame) (rest : List Frame),
        getInfo (f :: rest) mode = processInfoResponse f mode)
    ∧ (∀ (f : Frame) (rest : List Frame), f.id ≠ 0x7E8 →
        getInfo (f :: rest) mode = .err "unexpected response ID")
    ∧ (∀ (f : Frame) (rest : List Frame),
        getMapValue (f :: rest) = getMapValue [f])
    ∧ getMapValue [] = .err "timeout waiting for response" := by
  refine ⟨rfl, fun f rest => rfl, ?_, fun f rest => rfl, rfl⟩
  intro f rest h
  show processInfoResponse f mode = _
  unfold processInfoResponse
  rw [if_pos h]

/-- Concrete instantiation of the amended claim C3. -/
theorem c3_single_read_witness :
    getInfo [testFrame] 0x09 = .err "unexpected response ID" :=
  (c3_single_read 0x09).2.2.1 testFrame [] (by decide)

/-! ## Claim C5: engine-map refresh (src/main.go lines 231-307) -/

/-- `MapData` (main.go 41): one 16 by 16 calibration map with its axes.
Go float64 values are modelled in ℚ (see the note at `getMapValue`). -/
structure MapData where
  values : List (List ℚ)
  xAxis : List ℚ
  yAxis : List ℚ
deriving DecidableEq

/-- `EngineMaps` (main.go 47): the fuel and timing maps. -/
structure EngineMaps where
  fuel : MapData
  timing : MapData
deriving DecidableEq

/-- The request frame sent for one map cell (main.go 251-255): identifier
0x7DF, declared length 4, mode 9, the map PID, and the cell indices in
bytes 3 and 4. -/
def mapRequest (pid x y : Nat) : Frame :=
  { id := 0x7DF, data := [0x04, 0x09, pid, x, y, 0x00, 0x00, 0x00] }

/-- One cell of the walk (main.go 290, 300): the cell keeps the decoded
value when `getMapValue` succeeds and stays at its zero default on a
timeout or error.  The 512 exchanges run sequentially; `oracle pid x y`
is the per-exchange view of the shared channel: the frames arriving for
the cell (pid, x, y) before that exchange times out. -/
def mapCell (oracle : Nat → Nat → Nat → List Frame) (pid i j : Nat) : ℚ :=
  match getMapValue (oracle pid i j) with
  | .ok v => v
  | _ => 0

/-- The axis initialization loop (main.go 279-284): RPM steps of 500. -/
def axisX : List ℚ := (List.range 16).map (fun (i : Nat) => (i : ℚ) * 500)

/-- The axis initialization loop (main.go 279-284): load steps of 6.25. -/
def axisY : List ℚ := (List.range 16).map (fun (i : Nat) => (i : ℚ) * 6.25)

/-- One map of the walk: axes from the initialization loop, one cell per
(row, col) pair in row-major order, exactly as the nested Go loops fill
`Values[i][j]` from `getMapValue(pid, byte(i), byte(j))`. -/
def mapDataFor (oracle : Nat → Nat → Nat → List Frame) (pid : Nat) : MapData :=
  { values := (List.range 16).map
      (fun i => (List.range 16).map (fun j => mapCell oracle pid i j)),
    xAxis := axisX,
    yAxis := axisY }

/-- `getEngineMaps` (main.go 231): fuel map from PID 0x0E, timing map from
PID 0x0F.  With the bus present the Go function always returns the maps
with a nil error, whatever the per-cell outcomes; the model is total. -/
def getEngineMaps (oracle : Nat → Nat → Nat → List Frame) : EngineMaps :=
  { fuel := mapDataFor oracle 0x0E, timing := mapDataFor oracle 0x0F }

/-- Spec-side: the default engine maps of the spec, written out literally:
all 256 values zero per map, x axis 0, 500, ..., 7500 and y axis
0, 6.25, ..., 93.75. -/
def defaultEngineMaps : EngineMaps :=
  { fuel :=
      { values := List.replicate 16 (List.replicate 16 0),
        xAxis := [0, 500, 1000, 1500, 2000, 2500, 3000, 3500,
                  4000, 4500, 5000, 5500, 6000, 6500, 7000, 7500],
        yAxis := [0, 6.25, 12.5, 18.75, 25, 31.25, 37.5, 43.75,
                  50, 56.25, 62.5, 68.75, 75, 81.25, 87.5, 93.75] },
    timing :=
      { values := List.replicate 16 (List.replicate 16 0),
        xAxis := [0, 500, 1000, 1500, 2000, 2500, 3000, 3500,
                  4000, 4500, 5000, 5500, 6000, 6500, 7000, 7500],
        yAxis := [0, 6.25, 12.5, 18.75, 25, 31.25, 37.5, 43.75,
                  50, 56.25, 62.5, 68.75, 75, 81.25, 87.5, 93.75] } }

theorem getD_range_map {α : Type} (g : Nat → α) (i : Nat) (d : α)
    (h : i < 16) :
    (((List.range 16).map g).getD i d) = g i := by
  rw [List.getD_eq_getElem?_getD, List.getElem?_map, List.getElem?_range h]
  rfl

theorem getMapValue_cons_ok (f : Frame) (rest : List Frame)
    (hid : f.id = 0x7E8) (h5 : 5 ≤ f.data.getD 0 0)
    (hack : f.data.getD 1 0 = 0x49) :
    getMapValue (f :: rest)
      = .ok (((f.data.getD 3 0 <<< 8 ||| f.data.getD 4 0 : Nat) : ℚ) / 100) := by
  show (if f.id ≠ 0x7E8 then (GoRes.err "unexpected response ID" : GoRes ℚ)
      else if f.data.getD 0 0 < 5 ∨ f.data.getD 1 0 ≠ 0x49 then
        .err "invalid response format: insufficient data length"
      else .ok (((f.data.getD 3 0 <<< 8 ||| f.data.getD 4 0 : Nat) : ℚ) / 100))
    = _
  rw [if_neg (by simp [hid]), if_neg (by push_neg; exact ⟨h5, hack⟩)]

/-- Claim C5: the engine-map walk sends one request per cell carrying the
(row, col) indices; the axes satisfy xAxis[i] = i * 500 and
yAxis[i] = i * 6.25 (so xAxis[3] = 1500, yAxis[3] = 18.75); each cell holds
the decoded value of its own exchange, which on a valid response is the
big-endian 16-bit value of payload bytes 3 and 4 divided by 100 and on a
timeout is 0; and when every exchange times out the result is exactly the
default map, not an error. -/
theorem c5_getEngineMaps_correct (oracle : Nat → Nat → Nat → List Frame) :
    ((getEngineMaps oracle).fuel.xAxis.getD 3 0 = 1500
      ∧ (getEngineMaps oracle).fuel.yAxis.getD 3 0 = 18.75
      ∧ (getEngineMaps oracle).timing.xAxis.getD 3 0 = 1500
      ∧ (getEngineMaps oracle).timing.yAxis.getD 3 0 = 18.75)
    ∧ (∀ i j, i < 16 → j < 16 →
        (((getEngineMaps oracle).fuel.values.getD i []).getD j 0
            = mapCell oracle 0x0E i j)
        ∧ (((getEngineMaps oracle).timing.values.getD i []).getD j 0
            = mapCell oracle 0x0F i j))
    ∧ (∀ pid i j (f : Frame) (rest : List Frame),
        oracle pid i j = f :: rest → f.id = 0x7E8 →
        5 ≤ f.data.getD 0 0 → f.data.getD 1 0 = 0x49 →
        f.data.getD 4 0 < 256 →
        mapCell oracle pid i j
          = ((256 * f.data.getD 3 0 + f.data.getD 4 0 : Nat) : ℚ) / 100)
    ∧ (∀ pid i j, oracle pid i j = [] → mapCell oracle pid i j = 0)
    ∧ (∀ pid x y, (mapRequest pid x y).id = 0x7DF
        ∧ (mapRequest pid x y).data.getD 3 0 = x
        ∧ (mapRequest pid x y).data.getD 4 0 = y)
    ∧ getEngineMaps (fun _ _ _ => []) = defaultEngineMaps := by
  have haxisX : ∀ i, i < 16 → axisX.getD i 0 = (i : ℚ) * 500 := by
    intro i hi
    unfold axisX
    rw [getD_range_map _ i 0 hi]
  have haxisY : ∀ i, i < 16 → axisY.getD i 0 = (i : ℚ) * 6.25 := by
    intro i hi
    unfold axisY
    rw [getD_range_map _ i 0 hi]
  refine ⟨⟨?_, ?_, ?_, ?_⟩, ?_, ?_, ?_, fun pid x y => ⟨rfl, rfl, rfl⟩, ?_⟩
  · show axisX.getD 3 0 = 1500
    rw [haxisX 3 (by norm_num)]
    norm_num
  · show axisY.getD 3 0 = 18.75
    rw [haxisY 3 (by norm_num)]
    norm_num
  · show axisX.getD 3 0 = 1500
    rw [haxisX 3 (by norm_num)]
    norm_num
  · show axisY.getD 3 0 = 18.75
    rw [haxisY 3 (by norm_num)]
    norm_num
  · intro i j hi hj
    constructor
    · show (((List.range 16).map (fun i => (List.range 16).map
          (fun j => mapCell oracle 0x0E i j))).getD i []).getD j 0 = _
      rw [getD_range_map _ i [] hi, getD_range_map _ j 0 hj]
    · show (((List.range 16).map (fun i => (List.range 16).map
          (fun j => mapCell oracle 0x0F i j))).getD i []).getD j 0 = _
      rw [getD_range_map _ i [] hi, getD_range_map _ j 0 hj]
  · intro pid i j f rest hor hid h5 hack h4
    unfold mapCell
    rw [hor, getMapValue_cons_ok f rest hid h5 hack]
    show ((f.data.getD 3 0 <<< 8 ||| f.data.getD 4 0 : Nat) : ℚ) / 100 = _
    have hor2 : f.data.getD 3 0 <<< 8 ||| f.data.getD 4 0
        = 256 * f.data.getD 3 0 + f.data.getD 4 0 := by
      rw [Nat.shiftLeft_eq, Nat.mul_comm (f.data.getD 3 0) (2 ^ 8),
        ← Nat.mul_add_lt_is_or (by omega : f.data.getD 4 0 < 2 ^ 8)]
    rw [hor2]
  · intro pid i j h
    unfold mapCell
    rw [h]
    rfl
  · have hcell : ∀ pid i j, mapCell (fun _ _ _ => []) pid i j = 0 :=
      fun _ _ _ => rfl
    have hx : axisX = [0, 500, 1000, 1500, 2000, 2500, 3000, 3500,
        4000, 4500, 5000, 5500, 6000, 6500, 7000, 7500] := by
      norm_num [axisX, List.range_succ]
    have hy : axisY = [0, 6.25, 12.5, 18.75, 25, 31.25, 37.5, 43.75,
        50, 56.25, 62.5, 68.75, 75, 81.25, 87.5, 93.75] := by
      norm_num [axisY, List.range_succ]
    show EngineMaps.mk
        (MapData.mk ((List.range 16).map (fun i => (List.range 16).map
          (fun j => mapCell (fun _ _ _ => []) 0x0E i j))) axisX axisY)
        (MapData.mk ((List.range 16).map (fun i => (List.range 16).map
          (fun j => mapCell (fun _ _ _ => []) 0x0F i j))) axisX axisY)
      = defaultEngineMaps
    rw [hx, hy]
    unfold defaultEngineMaps
    simp [hcell]

/-- A well-formed map-cell response: declared length 5, acknowledgement
byte 0x49, value bytes 0x12 and 0x34. -/
def demoMapResponse : Frame :=
  { id := 0x7E8, data := [0x05, 0x49, 0x0E, 0x12, 0x34, 0x00, 0x00, 0x00] }

/-- Concrete instantiation of claim C5: the all-timeout oracle, one cell,
and one valid response frame. -/
theorem c5_getEngineMaps_correct_witness :
    (((getEngineMaps (fun _ _ _ => [])).fuel.values.getD 3 []).getD 5 0
      = mapCell (fun _ _ _ => []) 0x0E 3 5)
    ∧ mapCell (fun _ _ _ => [demoMapResponse]) 0x0E 0 0
      = ((256 * 0x12 + 0x34 : Nat) : ℚ) / 100 := by
  constructor
  · exact ((c5_getEngineMaps_correct (fun _ _ _ => [])).2.1 3 5
      (by decide) (by decide)).1
  · exact (c5_getEngineMaps_correct (fun _ _ _ => [demoMapResponse])).2.2.1
      0x0E 0 0 demoMapResponse [] rfl rfl (by decide) (by decide) (by decide)

/-! ## Claim C6: ECU identity refresh (src/main.go lines 176-229) -/

/-- ASCII whitespace as recognized by `strings.TrimSpace` (the responses
here are ASCII; the Unicode spaces of the Go function cannot appear in a
byte-for-byte CAN payload below 0x80). -/
def isSpaceByte (b : Nat) : Bool :=
  b = 32 || b = 9 || b = 10 || b = 11 || b = 12 || b = 13

/-- `strings.TrimSpace` on a byte string: drop leading and trailing
whitespace. -/
def trimSpace (l : List Nat) : List Nat :=
  (((l.dropWhile isSpaceByte).reverse.dropWhile isSpaceByte)).reverse

/-- `ECUInfo` (main.go 31): every field a Go string defaulting to the
empty string, which `json omitempty` serializes as absent; the empty byte
list is the unset state. -/
structure ECUInfo where
  version : List Nat := []
  hardware : List Nat := []
  software : List Nat := []
  calibration : List Nat := []
  vin : List Nat := []
  buildDate : List Nat := []
  protocol : List Nat := []
deriving DecidableEq

/-- One field of the refresh: the value kept from one `getInfo` call —
trimmed on success, left unset on any error or timeout (main.go 204-225).
All five calls pass mode 0x09. -/
def fieldOf (incoming : List Frame) : List Nat :=
  match getInfo incoming 0x09 with
  | .ok s => trimSpace s
  | _ => []

/-- The five request frames `getECUInfo` sends, in program order
(main.go 204-225): VIN (PID 0x02), version (PID 0x0A), calibration id
(PID 0x04), ECU name stored as software (PID 0x0A again), protocol
(PID 0x0C). -/
def ecuInfoRequests : List Frame :=
  [sendInfoRequest 0x09 0x02, sendInfoRequest 0x09 0x0A,
   sendInfoRequest 0x09 0x04, sendInfoRequest 0x09 0x0A,
   sendInfoRequest 0x09 0x0C]

/-- `getECUInfo` (main.go 176) with the bus present: five sequential
exchanges; `env k` is the per-exchange view of the channel for call `k`
(the frames arriving before that call times out).  The hardware and
buildDate fields are never assigned anywhere in the source.  The Go
function returns `(info, nil)` whenever the bus is non-nil, so the model
is total. -/
def getECUInfo (env : Nat → List Frame) : ECUInfo :=
  { vin := fieldOf (env 0),
    version := fieldOf (env 1),
    calibration := fieldOf (env 2),
    software := fieldOf (env 3),
    protocol := fieldOf (env 4),
    hardware := [],
    buildDate := [] }

/-- A well-formed mode-9 identity response carrying the bytes "VIN". -/
def demoVinResponse : Frame :=
  { id := 0x7E8, data := [0x05, 0x49, 0x56, 0x49, 0x4E, 0x00, 0x00, 0x00] }

/-- Claim C6 as stated is false: even when every one of the five exchanges
receives a valid response, the hardware field is still unset — there is no
hardware sub-query among the five (the fourth and second both use PID
0x0A; hardware is never populated). -/
theorem c6_counterexample :
    (getECUInfo (fun _ => [demoVinResponse])).hardware = []
    ∧ (getECUInfo (fun _ => [demoVinResponse])).vin = [0x56, 0x49, 0x4E]
    ∧ (getECUInfo (fun _ => [demoVinResponse])).version = [0x56, 0x49, 0x4E]
    ∧ (getECUInfo (fun _ => [demoVinResponse])).calibration = [0x56, 0x49, 0x4E]
    ∧ (getECUInfo (fun _ => [demoVinResponse])).software = [0x56, 0x49, 0x4E]
    ∧ (getECUInfo (fun _ => [demoVinResponse])).protocol = [0x56, 0x49, 0x4E] := by
  exact ⟨rfl, by decide, by decide, by decide, by decide, by decide⟩

/-- Claim C6 amended: the five sub-queries are VIN (PID 0x02), version
(PID 0x0A), calibration id (PID 0x04), software name (PID 0x0A) and
protocol (PID 0x0C), all with mode 0x09 on identifier 0x7DF; hardware and
buildDate are never set; each field depends only on its own exchange and a
timed-out exchange leaves its field unset; with calls 1 and 4 timing out
and the rest answered, exactly vin, calibration and software are set; the
refresh is total (never fails) when the bus is present. -/
theorem c6_getECUInfo_amended (env : Nat → List Frame) :
    (ecuInfoRequests.map (fun fr => fr.data.getD 1 0)
        = [0x09, 0x09, 0x09, 0x09, 0x09]
      ∧ ecuInfoRequests.map (fun fr => fr.data.getD 2 0)
        = [0x02, 0x0A, 0x04, 0x0A, 0x0C]
      ∧ ecuInfoRequests.map Frame.id = [0x7DF, 0x7DF, 0x7DF, 0x7DF, 0x7DF])
    ∧ (getECUInfo env).hardware = []
    ∧ (getECUInfo env).buildDate = []
    ∧ (getECUInfo env).vin = fieldOf (env 0)
    ∧ (getECUInfo env).version = fieldOf (env 1)
    ∧ (getECUInfo env).calibration = fieldOf (env 2)
    ∧ (getECUInfo env).software = fieldOf (env 3)
    ∧ (getECUInfo env).protocol = fieldOf (env 4)
    ∧ (∀ k, env k = [] → fieldOf (env k) = [])
    ∧ getECUInfo (fun k => if k = 1 ∨ k = 4 then [] else [demoVinResponse])
        = { vin := [0x56, 0x49, 0x4E], calibration := [0x56, 0x49, 0x4E],
            software := [0x56, 0x49, 0x4E] } := by
  refine ⟨⟨by decide, by decide, by decide⟩, rfl, rfl, rfl, rfl, rfl, rfl, rfl,
    ?_, by decide⟩
  intro k h
  unfold fieldOf
  rw [h]
  rfl

/-- Concrete instantiation of the amended claim C6 at a timed-out call. -/
theorem c6_getECUInfo_amended_witness :
    fieldOf ((fun _ : Nat => ([] : List Frame)) 0) = [] :=
  (c6_getECUInfo_amended (fun _ => [])).2.2.2.2.2.2.2.2.1 0 rfl

/-! ## Claim C7: broadcaster (src/main.go lines 115-132)

`broadcastTelemetry` marshals the snapshot once, then iterates the client
set writing the same payload to each; a client whose write fails is
closed and deleted from the set, and the iteration continues.  A client is
a subscriber handle plus its write behaviour; `failing = true` is a
subscriber whose every write fails (the scenario of the claim).  The Go
map iteration order is unspecified; the model fixes a list order, which
the claim never depends on.  Serialization happens once per publish by
construction: the single `marshal snap` value is the payload recorded for
every delivery. -/

structure Subscriber where
  sid : Nat
  failing : Bool
deriving DecidableEq

/-- The per-client loop of `broadcastTelemetry` (main.go 125-131): returns
the surviving client set and the list of successful deliveries
(subscriber, payload). -/
def broadcastStep (payload : List Nat) :
    List Subscriber → List Subscriber × List (Nat × List Nat)
  | [] => ([], [])
  | c :: rest =>
    let r := broadcastStep payload rest
    if c.failing then (r.1, r.2)
    else (c :: r.1, (c.sid, payload) :: r.2)

/-- `broadcastTelemetry` (main.go 115): marshal once, deliver to all. -/
def broadcastTelemetry {α : Type} (marshal : α → List Nat)
    (clients : List Subscriber) (snap : α) :
    List Subscriber × List (Nat × List Nat) :=
  broadcastStep (marshal snap) clients

/-- N successive publishes, threading the surviving client set and
accumulating deliveries in order. -/
def publishAll {α : Type} (marshal : α → List Nat) :
    List Subscriber → List α → List Subscriber × List (Nat × List Nat)
  | clients, [] => (clients, [])
  | clients, s :: rest =>
    let r := broadcastTelemetry marshal clients s
    let r2 := publishAll marshal r.1 rest
    (r2.1, r.2 ++ r2.2)

theorem broadcastStep_all_ok (payload : List Nat) (clients : List Subscriber)
    (h : ∀ c ∈ clients, c.failing = false) :
    broadcastStep payload clients
      = (clients, clients.map (fun c => (c.sid, payload))) := by
  induction clients with
  | nil => rfl
  | cons c rest ih =>
    have hc : c.failing = false := h c (List.mem_cons_self c rest)
    have hrest := ih (fun d hd => h d (List.mem_cons_of_mem c hd))
    simp [broadcastStep, hc, hrest]

theorem broadcastStep_with_bad (payload : List Nat)
    (pre post : List Subscriber) (bad : Subscriber)
    (hbad : bad.failing = true)
    (hgood : ∀ c ∈ pre ++ post, c.failing = false) :
    broadcastStep payload (pre ++ bad :: post)
      = (pre ++ post, (pre ++ post).map (fun c => (c.sid, payload))) := by
  induction pre with
  | nil =>
    have hpost := broadcastStep_all_ok payload post (by simpa using hgood)
    simp [broadcastStep, hbad, hpost]
  | cons p pre ih =>
    have hp : p.failing = false := hgood p (by simp)
    have hpre := ih (fun d hd => hgood d (by simp at hd ⊢; tauto))
    simp [broadcastStep, hp, hpre]

theorem publishAll_all_ok {α : Type} (marshal : α → List Nat)
    (clients : List Subscriber) (snaps : List α)
    (h : ∀ c ∈ clients, c.failing = false) :
    publishAll marshal clients snaps
      = (clients,
         snaps.flatMap (fun s => clients.map (fun c => (c.sid, marshal s)))) := by
  induction snaps with
  | nil => rfl
  | cons s rest ih =>
    have hstep := broadcastStep_all_ok (marshal s) clients h
    simp [publishAll, broadcastTelemetry, hstep, ih]

theorem publishAll_with_bad {α : Type} (marshal : α → List Nat)
    (pre post : List Subscriber) (bad : Subscriber) (s : α) (rest : List α)
    (hbad : bad.failing = true)
    (hgood : ∀ c ∈ pre ++ post, c.failing = false) :
    publishAll marshal (pre ++ bad :: post) (s :: rest)
      = (pre ++ post,
         (s :: rest).flatMap
           (fun s => (pre ++ post).map (fun c => (c.sid, marshal s)))) := by
  have hstep := broadcastStep_with_bad (marshal s) pre post bad hbad hgood
  have hrest := publishAll_all_ok marshal (pre ++ post) rest hgood
  simp [publishAll, broadcastTelemetry, hstep, hrest]

theorem filter_sid_nil (l : List Subscriber) (sidv : Nat) (payload : List Nat)
    (h : ∀ g ∈ l, g.sid ≠ sidv) :
    (l.map (fun g => (g.sid, payload))).filter (fun d => d.1 == sidv) = [] := by
  induction l with
  | nil => rfl
  | cons g rest ih =>
    have hg : g.sid ≠ sidv := h g (by simp)
    have hrest := ih (fun d hd => h d (by simp [hd]))
    simp [hg, hrest]

theorem filter_sid_single (good : List Subscriber) (c : Subscriber)
    (hc : c ∈ good) (hnodup : (good.map Subscriber.sid).Nodup)
    (payload : List Nat) :
    (good.map (fun g => (g.sid, payload))).filter (fun d => d.1 == c.sid)
      = [(c.sid, payload)] := by
  induction good with
  | nil => cases hc
  | cons g rest ih =>
    rw [List.map_cons, List.nodup_cons] at hnodup
    rcases List.mem_cons.mp hc with rfl | hmem
    · have hrest : (rest.map (fun g => (g.sid, payload))).filter
          (fun d => d.1 == c.sid) = [] := by
        apply filter_sid_nil
        intro d hd hds
        exact hnodup.1 (hds ▸ List.mem_map_of_mem Subscriber.sid hd)
      simp [hrest]
    · have hgs : g.sid ≠ c.sid := by
        intro he
        exact hnodup.1 (he ▸ List.mem_map_of_mem Subscriber.sid hmem)
      have hrest := ih hmem hnodup.2
      simp [hgs, hrest]

theorem filter_flatMap_all {α : Type} (marshal : α → List Nat)
    (good : List Subscriber) (c : Subscriber) (hc : c ∈ good)
    (hnodup : (good.map Subscriber.sid).Nodup) :
    ∀ snaps : List α,
      (((snaps.flatMap (fun s => good.map (fun g => (g.sid, marshal s)))).filter
        (fun d => d.1 == c.sid)).map Prod.snd) = snaps.map marshal := by
  intro snaps
  induction snaps with
  | nil => rfl
  | cons s rest ih =>
    rw [List.flatMap_cons, List.filter_append, List.map_append,
      filter_sid_single good c hc hnodup (marshal s), ih]
    rfl

/-- Claim C7: each publish serializes the snapshot once and delivers that
same payload to every subscriber; a subscriber whose write fails is
removed by that publish while delivery continues to the rest; publishing a
non-empty run of snapshots with one always-failing subscriber leaves
exactly the other subscribers in the set, and each of them has received
every snapshot, in order. -/
theorem c7_broadcast_correct {α : Type} (marshal : α → List Nat)
    (pre post : List Subscriber) (bad : Subscriber) (snaps : List α)
    (hbad : bad.failing = true)
    (hgood : ∀ c ∈ pre ++ post, c.failing = false) :
    (∀ s, broadcastTelemetry marshal (pre ++ bad :: post) s
        = (pre ++ post, (pre ++ post).map (fun c => (c.sid, marshal s))))
    ∧ (snaps ≠ [] →
        (publishAll marshal (pre ++ bad :: post) snaps).1 = pre ++ post)
    ∧ (publishAll marshal (pre ++ bad :: post) snaps).2
        = snaps.flatMap (fun s => (pre ++ post).map (fun c => (c.sid, marshal s)))
    ∧ (((pre ++ post).map Subscriber.sid).Nodup →
        ∀ c ∈ pre ++ post,
          ((publishAll marshal (pre ++ bad :: post) snaps).2.filter
            (fun d => d.1 == c.sid)).map Prod.snd = snaps.map marshal) := by
  have hone : ∀ s, broadcastTelemetry marshal (pre ++ bad :: post) s
      = (pre ++ post, (pre ++ post).map (fun c => (c.sid, marshal s))) :=
    fun s => broadcastStep_with_bad (marshal s) pre post bad hbad hgood
  have hall : (publishAll marshal (pre ++ bad :: post) snaps).2
      = snaps.flatMap (fun s => (pre ++ post).map (fun c => (c.sid, marshal s))) := by
    cases snaps with
    | nil => rfl
    | cons s rest =>
      rw [publishAll_with_bad marshal pre post bad s rest hbad hgood]
  refine ⟨hone, ?_, hall, ?_⟩
  · intro hne
    cases snaps with
    | nil => exact absurd rfl hne
    | cons s rest =>
      rw [publishAll_with_bad marshal pre post bad s rest hbad hgood]
  · intro hnodup c hc
    rw [hall]
    exact filter_flatMap_all marshal (pre ++ post) c hc hnodup snaps

/-- Concrete instantiation of claim C7: three subscribers, the middle one
always failing, two snapshots. -/
theorem c7_broadcast_correct_witness :
    broadcastTelemetry (fun n : Nat => [n]) [⟨1, false⟩, ⟨2, true⟩, ⟨3, false⟩] 7
      = ([⟨1, false⟩, ⟨3, false⟩],
         [(1, [7]), (3, [7])])
    ∧ (((publishAll (fun n : Nat => [n])
        [⟨1, false⟩, ⟨2, true⟩, ⟨3, false⟩] [7, 9]).2.filter
          (fun d => d.1 == 3)).map Prod.snd) = [[7], [9]] := by
  have h := c7_broadcast_correct (fun n : Nat => [n])
    [⟨1, false⟩] [⟨3, false⟩] ⟨2, true⟩ [7, 9] rfl (by decide)
  constructor
  · exact h.1 7
  · exact h.2.2.2 (by decide) ⟨3, false⟩ (by decide)

/-! ## Claim C8: no serialization of concurrent exchanges

In the source, the 30-second identity/map refresh goroutine
(main.go 439-451) and the 1-second telemetry goroutine (main.go 457-534)
both receive from the single shared `frameChan` with no mutex, token or
other arbitration; a full map refresh (512 exchanges of up to 100 ms)
lasts far longer than one telemetry tick, so the two are concurrently
blocked on the same channel whenever both run.  A Go channel delivers
each frame to exactly one receiver, chosen nondeterministically among
those blocked.

`concurrentTick` models the two schedules of one such race.  The
telemetry DTC exchange has sent its mode-3 request and its response sits
in the channel; a map-cell exchange is reading concurrently.  With
`mapFirst = false` the DTC exchange drains the channel before the map
read runs; with `mapFirst = true` the map-cell receive is scheduled first
and consumes one frame (its single `select` read), leaving the rest for
the DTC exchange. -/

/-- The telemetry-tick DTC receive loop (main.go 494-509): every frame
arriving before the 100 ms timeout is fed to `processDTCResponse` and the
decoded codes are concatenated. -/
def dtcTick (incoming : List Frame) : List String :=
  incoming.flatMap processDTCResponse

/-- The two schedules of the shared-channel race between the telemetry DTC
exchange and a concurrent map-cell exchange. -/
def concurrentTick (mapFirst : Bool) (chan : List Frame) :
    List String × GoRes ℚ :=
  if mapFirst then
    match chan with
    | [] => (dtcTick [], getMapValue [])
    | f :: rest => (dtcTick rest, getMapValue [f])
  else (dtcTick chan, getMapValue [])

/-- The mode-3 response frame answering the telemetry DTC request: one
stored trouble code P0123. -/
def dtcRespFrame : Frame :=
  { id := 0x7E8, data := [0x04, 0x43, 0x01, 0x23, 0x00, 0x00, 0x00, 0x00] }

/-- Claim C8 as stated is false: with the map-cell exchange scheduled
first on the shared channel, the telemetry DTC exchange loses its own
response frame — its result differs from the run in which nothing
interferes, so cross-talk between the two concurrent exchanges is
possible. -/
theorem c8_counterexample :
    (concurrentTick true [dtcRespFrame]).1 ≠ dtcTick [dtcRespFrame] := by
  decide

/-- Claim C8 amended: nothing serializes the two exchanges; both receive
from the one shared channel, and the outcome depends on the schedule.
When the DTC exchange reads first it decodes its response (P0123) and the
map exchange times out; when the map-cell exchange reads first it consumes
and rejects the DTC response frame, and the DTC exchange reports no
trouble codes for the tick. -/
theorem c8_cross_talk :
    concurrentTick false [dtcRespFrame]
      = (["P0123"], .err "timeout waiting for response")
    ∧ concurrentTick true [dtcRespFrame]
      = ([], .err "invalid response format: insufficient data length") := by
  constructor
  · decide
  · decide

end Iload
